import Mathlib

/-!
Verification of the tflite_runner repository's core inference/profiling
engine against its natural-language specification.

The definitions below are a shallow embedding of the C++ sources:

* `ImageUtils::NormalizeToUInt8` (image_utils.cpp)
* `TFLiteRunner` (tflite_runner.cpp): `Cleanup`, `LoadModel`,
  `InitGPUDelegate`, `AllocateTensors`, `RunInference`,
  `RunInferenceMulti`, `GetInputShape`, `GetOutputShape`,
  `GetOpPlacementStats`, and the helper `GetTensorElementCount`.

Modelling conventions:

* C++ `float`/`double` host values are modelled as exact rationals `ℚ`.
  The numeric behaviour exercised by the theorems (truncating casts to
  8-bit integers, widening 8-bit integers to float, comparisons and
  round-to-nearest on small integral values) is exact in `float`, so the
  rational model agrees with IEEE semantics on every value the theorems
  touch.
* The TensorFlow Lite engine (interpreter, delegate, kernels) is an
  external black box.  Its observable interface is modelled explicitly:
  tensors are `(type, dims, storage)` records, engine entry points that
  can fail (`TfLiteGpuDelegateV2Create`, `ModifyGraphWithDelegate`,
  `AllocateTensors`, `Invoke`) report success through boolean fields of
  an environment record supplied to each call, and the contents the
  engine leaves in the output tensors are represented by the
  (universally quantified) output-tensor state.
* Wall-clock durations measured by `TimeFunction` and the `/proc` /
  sysfs samples taken by the telemetry collector are nondeterministic
  external inputs; they are likewise passed in through the environment
  records.
* The C++ functions return `bool` and report the failure cause via a
  log line; the embedding returns `Option RunErr` where the error value
  records exactly the data printed by the corresponding `LOGE` call
  (`none` = the C++ function returned `true`).
-/

/-- Truncation toward zero of a rational, the semantics of a C++
`static_cast` from a floating-point value to an integer type (defined
whenever the truncated value is representable in the target type). -/
def truncQ (q : ℚ) : ℤ :=
  if 0 ≤ q then ⌊q⌋ else ⌈q⌉

/-- `std::round`: round half away from zero.  For `q ≥ 0` this is
`trunc (q + 1/2)`, for `q < 0` it is `trunc (q - 1/2)`. -/
def roundHalfAwayQ (q : ℚ) : ℤ :=
  if 0 ≤ q then truncQ (q + 1 / 2) else truncQ (q - 1 / 2)

/-- First element is the seed: `*std::min_element` over a nonempty
vector; the `[]` case is never reached by the source (guarded by the
`data.empty()` early return). -/
def listMin : List ℚ → ℚ
  | [] => 0
  | x :: xs => xs.foldl min x

/-- `*std::max_element`, same conventions as `listMin`. -/
def listMax : List ℚ → ℚ
  | [] => 0
  | x :: xs => xs.foldl max x

/-- `ImageUtils::NormalizeToUInt8` (image_utils.cpp:1005-1044).
Output bytes are modelled as integers; each produced value lies in
[0,255] on every reachable branch.  The float literal `1e-6f` is
modelled by the rational `1/1000000`; the two differ only below
`2^-23`, and every theorem below exercises ranges that are exactly `0`
or at least `1`. -/
def NormalizeToUInt8 (data : List ℚ) : List ℤ :=
  if data.isEmpty then []
  else
    let min_val := listMin data
    let max_val := listMax data
    if 0 ≤ min_val ∧ max_val ≤ 1 then
      -- Data in [0, 1], scale to [0, 255]
      data.map (fun x => truncQ (x * 255))
    else if 0 ≤ min_val ∧ max_val ≤ 255 then
      -- Data already in [0, 255]
      data.map (fun x => roundHalfAwayQ x)
    else
      -- Normalize to [0, 255] from arbitrary range
      let range := max_val - min_val
      if range < 1 / 1000000 then
        -- All values are the same
        List.replicate data.length 128
      else
        data.map (fun x => truncQ ((x - min_val) / range * 255))

/-!
## Engine session data model (tflite_runner.h / tflite_runner.cpp)
-/

/-- TfLite tensor element types reachable by the marshalling code:
`kTfLiteFloat32`, `kTfLiteUInt8`, `kTfLiteInt8`, and every other enum
value collapsed into `other` with its raw enum code. -/
inductive TfType where
  | f32 : TfType
  | u8 : TfType
  | i8 : TfType
  | other (code : ℤ) : TfType
deriving DecidableEq

/-- Raw storage of an engine tensor: float32 payloads hold rationals,
uint8/int8 payloads hold the stored integer values. -/
inductive TensorData where
  | fdata (xs : List ℚ) : TensorData
  | idata (xs : List ℤ) : TensorData
deriving DecidableEq

/-- An engine tensor as observed through the C API: element type,
declared dimension sequence (C `int` dims, modelled as `ℤ`), and the
current contents of its storage. -/
structure Tensor where
  ty : TfType
  dims : List ℤ
  data : TensorData
deriving DecidableEq

/-- Number of elements stored in a tensor's payload. -/
def Tensor.dataLen (t : Tensor) : ℕ :=
  match t.data with
  | .fdata xs => xs.length
  | .idata xs => xs.length

/-- The marshalling switch handles exactly float32, uint8 and int8. -/
def Tensor.supportedB (t : Tensor) : Bool :=
  match t.ty with
  | .other _ => false
  | _ => true

/-- `GetTensorElementCount` (tflite_runner.cpp:1182-1195) on the dims
list: product of the dims, each first converted to `size_t`
(two's-complement wrap of the C `int`), accumulated in `size_t`
arithmetic (mod `2^64`); a 0-d tensor has one element. -/
def GetTensorElementCountAux (dims : List ℤ) : ℕ :=
  if dims.length = 0 then 1
  else dims.foldl (fun count d => count * (d.emod (2 ^ 64)).toNat % 2 ^ 64) 1

/-- `GetTensorElementCount` on a (non-null) tensor pointer. -/
def GetTensorElementCount (t : Tensor) : ℕ :=
  GetTensorElementCountAux t.dims

/-- Engine invariant on an allocated tensor: the storage constructor
matches the element type and the payload holds exactly one value per
declared element. -/
def Tensor.wfb (t : Tensor) : Bool :=
  (match t.ty, t.data with
   | .f32, .fdata _ => true
   | .u8, .idata _ => true
   | .i8, .idata _ => true
   | _, _ => false) &&
  (t.dataLen == GetTensorElementCountAux t.dims)

/-- A scheduled node together with its registration, as consumed by
`GetOpPlacementStats`: whether `node.delegate` is non-null, the
registration's `custom_name` (null or a string) and `builtin_code`. -/
structure NodeReg where
  delegated : Bool
  custom_name : Option String
  builtin_code : ℤ
deriving DecidableEq

/-- The engine interpreter as observed by the runner: its input and
output tensors, its finalized execution plan (a list of node indices)
and its node table (`node_and_registration` returns null exactly for
out-of-range indices). -/
structure Interp where
  inputs : List Tensor := []
  outputs : List Tensor := []
  execution_plan : List ℤ := []
  nodes : List NodeReg := []
deriving DecidableEq

/-- `Interpreter::node_and_registration(node_index)`: null iff the
index is out of range of the node table. -/
def nodeLookup (nodes : List NodeReg) (idx : ℤ) : Option NodeReg :=
  if 0 ≤ idx then nodes.get? idx.toNat else none

structure MemoryStats where
  vm_kb : ℕ := 0
  rss_kb : ℕ := 0
deriving DecidableEq

structure GpuMemorySnapshot where
  available : Bool := false
  source_path : String := ""
  raw_report : String := ""
deriving DecidableEq

structure TimingStats where
  model_load_ms : ℚ := 0
  delegate_init_ms : ℚ := 0
  tensor_allocation_ms : ℚ := 0
  input_copy_ms : ℚ := 0
  inference_ms : ℚ := 0
  output_copy_ms : ℚ := 0
  total_ms : ℚ := 0
deriving DecidableEq

structure OpPlacementStats where
  total_ops : ℤ := 0
  gpu_ops : ℤ := 0
  cpu_ops : ℤ := 0
  cpu_op_names : List String := []
deriving DecidableEq

/-- The `TFLiteRunner` object state.  Opaque native pointers are
modelled by presence flags (`model_present`, `options_present`,
`gpu_delegate`) or by an `Option` of the observable engine state
(`interp`). -/
structure Runner where
  model_present : Bool := false
  options_present : Bool := false
  interp : Option Interp := none
  gpu_delegate : Bool := false
  tensors_allocated : Bool := false
  current_memory : MemoryStats := {}
  memory_after_model_load : MemoryStats := {}
  memory_after_delegate_init : MemoryStats := {}
  memory_after_tensor_allocation : MemoryStats := {}
  memory_after_inference : MemoryStats := {}
  gpu_memory_after_delegate_init : GpuMemorySnapshot := {}
  gpu_memory_after_inference : GpuMemorySnapshot := {}
  timing_stats : TimingStats := {}
  profiling_enabled : Bool := true
deriving DecidableEq

/-- The distinct failure causes of the runner's operations; each
constructor corresponds to one `LOGE` line followed by a `false`
return, and carries exactly the data that line prints. -/
inductive RunErr where
  | noInterpreter : RunErr
  | allocFailed : RunErr
  | inputCountMismatch (expected got : ℕ) : RunErr
  | nullInputTensor (i : ℕ) : RunErr
  | inputSizeMismatch (i expected got : ℕ) : RunErr
  | unsupportedInputType (i : ℕ) (ty : TfType) : RunErr
  | inputCopyFailed (i : ℕ) : RunErr
  | invokeFailed : RunErr
  | nullOutputTensor (i : ℕ) : RunErr
  | unsupportedOutputType (i : ℕ) (ty : TfType) : RunErr
  | outputCopyFailed (i : ℕ) : RunErr
deriving DecidableEq

/-- `TFLiteRunner::Cleanup` (tflite_runner.cpp:1217-1241): releases the
delegate, interpreter, options and model, clears the allocation flag,
and resets the timing stats and the five process-memory fields to their
defaults.  The two GPU memory snapshots are NOT touched. -/
def Cleanup (s : Runner) : Runner :=
  { s with
    gpu_delegate := false
    interp := none
    options_present := false
    model_present := false
    tensors_allocated := false
    timing_stats := {}
    current_memory := {}
    memory_after_model_load := {}
    memory_after_delegate_init := {}
    memory_after_tensor_allocation := {}
    memory_after_inference := {} }

/-!
## Session lifecycle operations

Each operation takes an environment record carrying the results of the
external interactions the C++ code performs during that call: engine
success flags, `TimeFunction` durations, and telemetry samples.
-/

/-- External observations made by one `LoadModel` call. -/
structure LoadEnv where
  model_ok : Bool := true
  options_ok : Bool := true
  interp_result : Option Interp := some {}
  t_load : ℚ := 0
  mem_model : MemoryStats := {}
deriving DecidableEq

/-- `TFLiteRunner::LoadModel` (tflite_runner.cpp:1243-1276): tears the
session down with `Cleanup`, then creates model, options and
interpreter inside one timed block, records the model-load duration
(also on failure), and on success records the "after model load"
memory snapshot and clears the allocation flag. -/
def LoadModel (env : LoadEnv) (s0 : Runner) : Bool × Runner :=
  let s := Cleanup s0
  let res :=
    if !env.model_ok then (false, s)
    else
      let s := { s with model_present := true }
      if !env.options_ok then (false, s)
      else
        let s := { s with options_present := true }
        match env.interp_result with
        | none => (false, s)
        | some it => (true, { s with interp := some it })
  let success := res.1
  let s := res.2
  let s := { s with timing_stats := { s.timing_stats with model_load_ms := env.t_load } }
  if !success || !s.model_present || s.interp == none then (false, s)
  else
    -- RecordMemorySnapshot(memory_after_model_load_)
    let s :=
      if s.profiling_enabled then
        { s with memory_after_model_load := env.mem_model, current_memory := env.mem_model }
      else s
    (true, { s with tensors_allocated := false })

/-- `TFLiteRunner::AllocateTensors` (tflite_runner.cpp:1329-1359):
asks the engine to commit tensor memory (`alloc_ok` is the engine's
verdict), sets the allocation flag accordingly, logs tensor
descriptors, and on success records the "after tensor allocation"
memory snapshot. -/
def AllocateTensors (alloc_ok : Bool) (mem_alloc : MemoryStats) (s : Runner) :
    Bool × Runner :=
  match s.interp with
  | none => (false, s)
  | some _ =>
    if !alloc_ok then (false, { s with tensors_allocated := false })
    else
      let s := { s with tensors_allocated := true }
      let s :=
        if s.profiling_enabled then
          { s with memory_after_tensor_allocation := mem_alloc, current_memory := mem_alloc }
        else s
      (true, s)

/-- External observations made by one `InitGPUDelegate` call. -/
structure DelegateEnv where
  create_ok : Bool := true
  modify_ok : Bool := true
  alloc_ok : Bool := true
  t_delegate : ℚ := 0
  t_alloc : ℚ := 0
  mem_delegate : MemoryStats := {}
  gpu_snap_delegate : GpuMemorySnapshot := {}
  mem_alloc : MemoryStats := {}
deriving DecidableEq

/-- `TFLiteRunner::InitGPUDelegate` (tflite_runner.cpp:1278-1327):
fails if no interpreter; succeeds immediately (a no-op) if a delegate
is already attached; otherwise creates the delegate and modifies the
graph inside one timed block (on a modify failure the delegate is
deleted again), then on success records the delegate-init telemetry
and runs the timed tensor (re-)allocation, whose verdict is the return
value. -/
def InitGPUDelegate (env : DelegateEnv) (s : Runner) : Bool × Runner :=
  match s.interp with
  | none => (false, s)
  | some _ =>
    if s.gpu_delegate then (true, s)
    else
      let res :=
        if !env.create_ok then (false, s)
        else if !env.modify_ok then (false, s)
        else (true, { s with gpu_delegate := true })
      let success := res.1
      let s := res.2
      let s := { s with timing_stats := { s.timing_stats with delegate_init_ms := env.t_delegate } }
      if !success || !s.gpu_delegate then (false, s)
      else
        let s :=
          if s.profiling_enabled then
            { s with memory_after_delegate_init := env.mem_delegate, current_memory := env.mem_delegate }
          else s
        let s :=
          if s.profiling_enabled then
            { s with gpu_memory_after_delegate_init := env.gpu_snap_delegate }
          else s
        let p := AllocateTensors env.alloc_ok env.mem_alloc s
        let s := { p.2 with timing_stats := { p.2.timing_stats with tensor_allocation_ms := env.t_alloc } }
        (p.1, s)

/-!
## Tensor marshalling (the copy loops of `RunInferenceMulti`)
-/

/-- `TfLiteTensorCopyFromBuffer`: succeeds iff the supplied byte count
equals the tensor's byte size; since both sides use the same element
width, that is element-count equality here.  On success the tensor's
storage is replaced wholesale. -/
def TfLiteTensorCopyFromBuffer (t : Tensor) (d : TensorData) : Option Tensor :=
  let n := match d with | .fdata xs => xs.length | .idata xs => xs.length
  if n = GetTensorElementCount t then some { t with data := d } else none

/-- The input-copy loop of `RunInferenceMulti`
(tflite_runner.cpp:1432-1489), walking tensor `i` and host buffer `i`
in step.  On any failure the loop stops: tensors already processed
keep their freshly copied contents, the failing tensor and all later
tensors keep their previous contents.  uint8/int8 buffers are built by
`static_cast` (truncation) from each host float. -/
def copyInputsLoop (i : ℕ) : List Tensor → List (List ℚ) →
    Option RunErr × List Tensor
  | ts, [] => (none, ts)
  | [], _ :: _ => (some (.nullInputTensor i), [])
  | t :: ts, buf :: bufs =>
    let expected := GetTensorElementCount t
    if buf.length ≠ expected then
      (some (.inputSizeMismatch i expected buf.length), t :: ts)
    else
      match t.ty with
      | .f32 =>
        match TfLiteTensorCopyFromBuffer t (.fdata buf) with
        | none => (some (.inputCopyFailed i), t :: ts)
        | some t2 =>
          let r := copyInputsLoop (i + 1) ts bufs
          (r.1, t2 :: r.2)
      | .u8 =>
        match TfLiteTensorCopyFromBuffer t (.idata (buf.map truncQ)) with
        | none => (some (.inputCopyFailed i), t :: ts)
        | some t2 =>
          let r := copyInputsLoop (i + 1) ts bufs
          (r.1, t2 :: r.2)
      | .i8 =>
        match TfLiteTensorCopyFromBuffer t (.idata (buf.map truncQ)) with
        | none => (some (.inputCopyFailed i), t :: ts)
        | some t2 =>
          let r := copyInputsLoop (i + 1) ts bufs
          (r.1, t2 :: r.2)
      | .other c => (some (.unsupportedInputType i (.other c)), t :: ts)

/-- `std::vector::resize`: truncate or extend with a default value. -/
def resizeList (xs : List α) (n : ℕ) (d : α) : List α :=
  xs.take n ++ List.replicate (n - xs.length) d

/-- The output-copy loop of `RunInferenceMulti`
(tflite_runner.cpp:1508-1569).  `outs` is the caller's output vector
already resized to the output-tensor count; entry `i` is first resized
to the tensor's element count, then overwritten from the tensor:
float32 contents verbatim, uint8/int8 contents widened value-by-value
to float (no dequantization).  The `(_ :: _, [])` case is unreachable
because `outs` has exactly one entry per output tensor. -/
def copyOutputsLoop (i : ℕ) : List Tensor → List (List ℚ) →
    Option RunErr × List (List ℚ)
  | [], outs => (none, outs)
  | _ :: _, [] => (some (.nullOutputTensor i), [])
  | t :: ts, o :: outs =>
    let n := GetTensorElementCount t
    let o2 := resizeList o n 0
    match t.ty with
    | .f32 =>
      match t.data with
      | .fdata xs =>
        if xs.length = n then
          let r := copyOutputsLoop (i + 1) ts outs
          (r.1, xs :: r.2)
        else (some (.outputCopyFailed i), o2 :: outs)
      | .idata _ => (some (.outputCopyFailed i), o2 :: outs)
    | .u8 =>
      match t.data with
      | .idata xs =>
        if xs.length = n then
          let r := copyOutputsLoop (i + 1) ts outs
          (r.1, (xs.map fun z => (z : ℚ)) :: r.2)
        else (some (.outputCopyFailed i), o2 :: outs)
      | .fdata _ => (some (.outputCopyFailed i), o2 :: outs)
    | .i8 =>
      match t.data with
      | .idata xs =>
        if xs.length = n then
          let r := copyOutputsLoop (i + 1) ts outs
          (r.1, (xs.map fun z => (z : ℚ)) :: r.2)
        else (some (.outputCopyFailed i), o2 :: outs)
      | .fdata _ => (some (.outputCopyFailed i), o2 :: outs)
    | .other c => (some (.unsupportedOutputType i (.other c)), o2 :: outs)

/-- External observations made by one `RunInferenceMulti` call. -/
structure RunEnv where
  alloc_ok : Bool := true
  invoke_ok : Bool := true
  t_alloc : ℚ := 0
  t_input : ℚ := 0
  t_invoke : ℚ := 0
  t_output : ℚ := 0
  t_total : ℚ := 0
  mem_alloc : MemoryStats := {}
  mem_inference : MemoryStats := {}
  gpu_snap_inference : GpuMemorySnapshot := {}
deriving DecidableEq

/-- `TFLiteRunner::RunInferenceMulti` (tflite_runner.cpp:1403-1584).
Returns the failure cause (`none` = the C++ call returned `true`), the
final contents of the caller's `outputs` vector (initially
`outputs0`), and the resulting session state.  `TfLiteInterpreterInvoke`
is the opaque engine computation: the model tracks only its success
flag, and the post-invoke output-tensor contents are represented by
the output-tensor state carried in `interp`. -/
def RunInferenceMulti (env : RunEnv) (inputs : List (List ℚ))
    (outputs0 : List (List ℚ)) (s0 : Runner) :
    Option RunErr × List (List ℚ) × Runner :=
  match s0.interp with
  | none => (some .noInterpreter, outputs0, s0)
  | some it0 =>
    let pa :=
      if s0.tensors_allocated then (true, s0)
      else
        let p := AllocateTensors env.alloc_ok env.mem_alloc s0
        (p.1, { p.2 with timing_stats := { p.2.timing_stats with tensor_allocation_ms := env.t_alloc } })
    if !pa.1 then (some .allocFailed, outputs0, pa.2)
    else
      let s1 := pa.2
      let expected := it0.inputs.length
      if inputs.length ≠ expected then
        (some (.inputCountMismatch expected inputs.length), outputs0, s1)
      else
        let ic := copyInputsLoop 0 it0.inputs inputs
        let it1 : Interp := { it0 with inputs := ic.2 }
        let s2 := { s1 with
          interp := some it1
          timing_stats := { s1.timing_stats with input_copy_ms := env.t_input } }
        match ic.1 with
        | some e => (some e, outputs0, s2)
        | none =>
          let s3 := { s2 with timing_stats := { s2.timing_stats with inference_ms := env.t_invoke } }
          if !env.invoke_ok then (some .invokeFailed, outputs0, s3)
          else
            let outCount := it1.outputs.length
            let oc := copyOutputsLoop 0 it1.outputs (resizeList outputs0 outCount [])
            let s4 := { s3 with timing_stats := { s3.timing_stats with output_copy_ms := env.t_output } }
            match oc.1 with
            | some e => (some e, oc.2, s4)
            | none =>
              let s5 := { s4 with timing_stats := { s4.timing_stats with total_ms := env.t_total } }
              let s6 :=
                if s5.profiling_enabled then
                  { s5 with
                    memory_after_inference := env.mem_inference
                    current_memory := env.mem_inference
                    gpu_memory_after_inference := env.gpu_snap_inference }
                else s5
              (none, oc.2, s6)

/-- `TFLiteRunner::RunInference` (tflite_runner.cpp:1387-1401): wraps
the single input buffer into a one-element list, runs
`RunInferenceMulti` with a fresh empty outputs vector, and on success
copies output 0 (when present) into the caller's output buffer. -/
def RunInference (env : RunEnv) (input_data : List ℚ)
    (output_data : List ℚ) (s : Runner) :
    Option RunErr × List ℚ × Runner :=
  let r := RunInferenceMulti env [input_data] [] s
  match r.1 with
  | some e => (some e, output_data, r.2.2)
  | none =>
    match r.2.1 with
    | [] => (none, output_data, r.2.2)
    | o :: _ => (none, o, r.2.2)

/-!
## Shape accessors and the operator placement analyzer
-/

/-- `TFLiteRunner::GetInputShape` (tflite_runner.cpp:1586-1607): empty
when no interpreter exists, when the C `int` index is out of range, or
when the engine returns a null tensor (never, for an in-range index);
otherwise the declared dims in order. -/
def GetInputShape (s : Runner) (index : ℤ) : List ℤ :=
  match s.interp with
  | none => []
  | some it =>
    if index < 0 ∨ (it.inputs.length : ℤ) ≤ index then []
    else
      match it.inputs.get? index.toNat with
      | none => []
      | some t => t.dims

/-- `TFLiteRunner::GetOutputShape` (tflite_runner.cpp:1609-1630),
identical to `GetInputShape` on the output tensor list. -/
def GetOutputShape (s : Runner) (index : ℤ) : List ℤ :=
  match s.interp with
  | none => []
  | some it =>
    if index < 0 ∨ (it.outputs.length : ℤ) ≤ index then []
    else
      match it.outputs.get? index.toNat with
      | none => []
      | some t => t.dims

/-- Body of the placement loop of `GetOpPlacementStats` for a single
scheduled `node_index`: a null lookup is skipped (`continue`), a node
carrying a delegate association counts as a GPU op, anything else as a
CPU op whose name (custom name if non-null, else the builtin enum
name) is appended in execution order. -/
def placeStep (enumName : ℤ → String) (nodes : List NodeReg)
    (stats : OpPlacementStats) (node_index : ℤ) : OpPlacementStats :=
  match nodeLookup nodes node_index with
  | none => stats
  | some nr =>
    if nr.delegated then { stats with gpu_ops := stats.gpu_ops + 1 }
    else
      let op_name :=
        match nr.custom_name with
        | some c => c
        | none => enumName nr.builtin_code
      { stats with
        cpu_ops := stats.cpu_ops + 1
        cpu_op_names := stats.cpu_op_names ++ [op_name] }

/-- `TFLiteRunner::GetOpPlacementStats` (tflite_runner.cpp:1655-1690).
`enumName` is the external `tflite::EnumNameBuiltinOperator` table
(total: flatbuffers returns `""`, never null, for unknown codes). -/
def GetOpPlacementStats (enumName : ℤ → String) (s : Runner) : OpPlacementStats :=
  match s.interp with
  | none => {}
  | some it =>
    let stats0 : OpPlacementStats := { total_ops := (it.execution_plan.length : ℤ) }
    it.execution_plan.foldl (placeStep enumName it.nodes) stats0

/-!
## Spec-side descriptions used by the theorem statements
-/

/-- The storage an input tensor holds after a successful copy of host
buffer `buf`, per the numeric-cast policy: float32 verbatim,
uint8/int8 by truncating each host float. -/
def convertInputData (t : Tensor) (buf : List ℚ) : TensorData :=
  match t.ty with
  | .f32 => .fdata buf
  | .u8 => .idata (buf.map truncQ)
  | .i8 => .idata (buf.map truncQ)
  | .other _ => t.data

/-- The host buffer produced from an output tensor: float32 contents
verbatim, uint8/int8 raw stored integers widened to float with no
dequantization. -/
def readTensorQ (t : Tensor) : List ℚ :=
  match t.ty, t.data with
  | .f32, .fdata xs => xs
  | .u8, .idata xs => xs.map fun z => (z : ℚ)
  | .i8, .idata xs => xs.map fun z => (z : ℚ)
  | _, _ => []

/-!
## Theorems
-/

theorem listMin_const (x : ℚ) (xs : List ℚ) (hall : ∀ y ∈ xs, y = x) :
    listMin (x :: xs) = x := by
  unfold listMin
  induction xs generalizing x with
  | nil => rfl
  | cons y ys ih =>
    have hy : y = x := hall y (by simp)
    have : ∀ z ∈ ys, z = x := fun z hz => hall z (by simp [hz])
    simp only [List.foldl_cons, hy, min_self]
    exact ih x this

theorem listMax_const (x : ℚ) (xs : List ℚ) (hall : ∀ y ∈ xs, y = x) :
    listMax (x :: xs) = x := by
  unfold listMax
  induction xs generalizing x with
  | nil => rfl
  | cons y ys ih =>
    have hy : y = x := hall y (by simp)
    have : ∀ z ∈ ys, z = x := fun z hz => hall z (by simp [hz])
    simp only [List.foldl_cons, hy, max_self]
    exact ih x this

theorem truncQ_intCast (z : ℤ) : truncQ (z : ℚ) = z := by
  unfold truncQ
  split <;> simp

/-- Claim C7 (counterexample): a buffer whose values are all `5.0` does
NOT normalize to the constant `128`; `5.0` lies in `[0,255]`, so the
round branch applies and every output byte is `5`. -/
theorem c7_counterexample :
    NormalizeToUInt8 [5, 5, 5, 5] = [5, 5, 5, 5] ∧
      NormalizeToUInt8 [5, 5, 5, 5] ≠ List.replicate 4 128 := by
  have h5 : roundHalfAwayQ 5 = 5 := by
    unfold roundHalfAwayQ truncQ
    rw [if_pos (by norm_num), if_pos (by norm_num)]
    norm_num [Int.floor_eq_iff]
  have hres : NormalizeToUInt8 [5, 5, 5, 5] = [5, 5, 5, 5] := by
    unfold NormalizeToUInt8
    rw [if_neg (by simp)]
    have hmin : listMin [5, 5, 5, 5] = 5 := by simp [listMin]
    have hmax : listMax [5, 5, 5, 5] = 5 := by simp [listMax]
    simp only [hmin, hmax]
    rw [if_neg (by norm_num), if_pos (by norm_num)]
    simp [h5]
  exact ⟨hres, by rw [hres]; decide⟩

/-- Claim C7 (amended): a nonempty buffer with all values equal to `5.0`
normalizes to a constant output of `5` for every pixel/channel (the
`[0,255]` rounding branch applies); the degenerate-range constant-128
fallback fires only when the common value lies outside `[0,255]`, e.g.
a nonempty buffer with all values equal to `300.0` normalizes to a
constant `128`. -/
theorem c7_theorem (data : List ℚ) (hne : data ≠ []) :
    ((∀ x ∈ data, x = 5) →
        NormalizeToUInt8 data = List.replicate data.length 5) ∧
    ((∀ x ∈ data, x = 300) →
        NormalizeToUInt8 data = List.replicate data.length 128) := by
  obtain ⟨a, as, rfl⟩ := List.exists_cons_of_ne_nil hne
  have h5 : roundHalfAwayQ 5 = 5 := by
    unfold roundHalfAwayQ truncQ
    rw [if_pos (by norm_num), if_pos (by norm_num)]
    norm_num [Int.floor_eq_iff]
  constructor
  · intro hall
    have ha : a = 5 := hall a (by simp)
    subst ha
    have htail : ∀ y ∈ as, y = (5 : ℚ) := fun y hy => hall y (by simp [hy])
    have hmin : listMin (5 :: as) = 5 := listMin_const 5 as htail
    have hmax : listMax (5 :: as) = 5 := listMax_const 5 as htail
    unfold NormalizeToUInt8
    rw [if_neg (by simp)]
    simp only [hmin, hmax]
    rw [if_neg (by norm_num), if_pos (by norm_num)]
    rw [List.eq_replicate_iff]
    refine ⟨by simp, ?_⟩
    intro b hb
    rw [List.mem_map] at hb
    obtain ⟨x, hx, rfl⟩ := hb
    have hx5 : x = (5 : ℚ) := hall x hx
    rw [hx5, h5]
  · intro hall
    have ha : a = 300 := hall a (by simp)
    subst ha
    have htail : ∀ y ∈ as, y = (300 : ℚ) := fun y hy => hall y (by simp [hy])
    have hmin : listMin (300 :: as) = 300 := listMin_const 300 as htail
    have hmax : listMax (300 :: as) = 300 := listMax_const 300 as htail
    unfold NormalizeToUInt8
    rw [if_neg (by simp)]
    simp only [hmin, hmax]
    rw [if_neg (by norm_num), if_neg (by norm_num), if_pos (by norm_num)]

/-- Witness for `c7_theorem` at the concrete buffer `[5,5,5,5]`. -/
theorem c7_witness :
    ((∀ x ∈ ([5, 5, 5, 5] : List ℚ), x = 5) →
        NormalizeToUInt8 [5, 5, 5, 5] = List.replicate 4 5) ∧
    ((∀ x ∈ ([5, 5, 5, 5] : List ℚ), x = 300) →
        NormalizeToUInt8 [5, 5, 5, 5] = List.replicate 4 128) :=
  c7_theorem [5, 5, 5, 5] (by decide)

/-- Claim C5: with a delegate already attached, `InitGPUDelegate` is a
successful no-op: it returns `true` with the session state unchanged
(in particular the attached delegate and the delegate-init timing value
are untouched), and the result does not depend on the environment, so
delegate construction is not re-run. -/
theorem c5_theorem (env : DelegateEnv) (s : Runner) (it : Interp)
    (hi : s.interp = some it) (hd : s.gpu_delegate = true) :
    InitGPUDelegate env s = (true, s) := by
  unfold InitGPUDelegate
  rw [hi]
  simp [hd]

/-- Witness for `c5_theorem` on a concrete session with an attached
delegate. -/
theorem c5_witness :
    InitGPUDelegate {} { interp := some {}, gpu_delegate := true } =
      (true, { interp := some {}, gpu_delegate := true }) :=
  c5_theorem {} { interp := some {}, gpu_delegate := true } {} rfl rfl

/-- Claim C10: `Cleanup` resets the timing stats and all process-memory
snapshots (after model load / delegate init / tensor allocation /
inference, and the current sample) to their zero defaults but leaves
the two GPU memory snapshots untouched; `LoadModel` (which runs
`Cleanup` first) also never writes the GPU memory snapshots, so after
a reload they still hold the values recorded for the previous model. -/
theorem c10_theorem (s : Runner) (env : LoadEnv) :
    (Cleanup s).timing_stats = {} ∧
    (Cleanup s).current_memory = {} ∧
    (Cleanup s).memory_after_model_load = {} ∧
    (Cleanup s).memory_after_delegate_init = {} ∧
    (Cleanup s).memory_after_tensor_allocation = {} ∧
    (Cleanup s).memory_after_inference = {} ∧
    (Cleanup s).gpu_memory_after_delegate_init = s.gpu_memory_after_delegate_init ∧
    (Cleanup s).gpu_memory_after_inference = s.gpu_memory_after_inference ∧
    (LoadModel env s).2.gpu_memory_after_delegate_init = s.gpu_memory_after_delegate_init ∧
    (LoadModel env s).2.gpu_memory_after_inference = s.gpu_memory_after_inference := by
  refine ⟨rfl, rfl, rfl, rfl, rfl, rfl, rfl, rfl, ?_, ?_⟩ <;>
    · unfold LoadModel Cleanup
      cases env.model_ok <;> cases env.options_ok <;>
        cases env.interp_result <;> first
          | rfl
          | (simp; split <;> rfl)

/-- Claim C8: the shape accessors return the declared dimension
sequence of the tensor at an in-range index (regardless of tensor
allocation state), and return the empty sequence — not an error —
whenever no execution graph exists or the index is out of range. -/
theorem c8_theorem (s : Runner) (index : ℤ) :
    (s.interp = none → GetInputShape s index = [] ∧ GetOutputShape s index = []) ∧
    (∀ it : Interp, s.interp = some it →
      ((index < 0 ∨ (it.inputs.length : ℤ) ≤ index) → GetInputShape s index = []) ∧
      (∀ h : 0 ≤ index ∧ index.toNat < it.inputs.length,
          GetInputShape s index = (it.inputs.get ⟨index.toNat, h.2⟩).dims) ∧
      ((index < 0 ∨ (it.outputs.length : ℤ) ≤ index) → GetOutputShape s index = []) ∧
      (∀ h : 0 ≤ index ∧ index.toNat < it.outputs.length,
          GetOutputShape s index = (it.outputs.get ⟨index.toNat, h.2⟩).dims)) := by
  constructor
  · intro h
    unfold GetInputShape GetOutputShape
    rw [h]
    exact ⟨rfl, rfl⟩
  · intro it hi
    refine ⟨?_, ?_, ?_, ?_⟩
    · intro hrange
      simp only [GetInputShape, hi]
      rw [if_pos hrange]
    · rintro ⟨h0, hlt⟩
      have hneg : ¬(index < 0 ∨ (it.inputs.length : ℤ) ≤ index) := by omega
      simp only [GetInputShape, hi]
      rw [if_neg hneg, List.get?_eq_get hlt]
    · intro hrange
      simp only [GetOutputShape, hi]
      rw [if_pos hrange]
    · rintro ⟨h0, hlt⟩
      have hneg : ¬(index < 0 ∨ (it.outputs.length : ℤ) ≤ index) := by omega
      simp only [GetOutputShape, hi]
      rw [if_neg hneg, List.get?_eq_get hlt]

/-- Witness for `c8_theorem` on a session holding one input tensor of
dims `[1,2,2,1]` and one output tensor of dims `[1,4]`, at index `0`. -/
theorem c8_witness :
    (Runner.interp
        { interp := some
            { inputs := [{ ty := .f32, dims := [1, 2, 2, 1], data := .fdata [0, 0, 0, 0] }]
              outputs := [{ ty := .f32, dims := [1, 4], data := .fdata [0, 0, 0, 0] }] } } = none →
      GetInputShape
          { interp := some
              { inputs := [{ ty := .f32, dims := [1, 2, 2, 1], data := .fdata [0, 0, 0, 0] }]
                outputs := [{ ty := .f32, dims := [1, 4], data := .fdata [0, 0, 0, 0] }] } } 0 = [] ∧
      GetOutputShape
          { interp := some
              { inputs := [{ ty := .f32, dims := [1, 2, 2, 1], data := .fdata [0, 0, 0, 0] }]
                outputs := [{ ty := .f32, dims := [1, 4], data := .fdata [0, 0, 0, 0] }] } } 0 = []) ∧
    (∀ it : Interp,
      Runner.interp
          { interp := some
              { inputs := [{ ty := .f32, dims := [1, 2, 2, 1], data := .fdata [0, 0, 0, 0] }]
                outputs := [{ ty := .f32, dims := [1, 4], data := .fdata [0, 0, 0, 0] }] } } = some it →
      (((0 : ℤ) < 0 ∨ (it.inputs.length : ℤ) ≤ 0) →
        GetInputShape
            { interp := some
                { inputs := [{ ty := .f32, dims := [1, 2, 2, 1], data := .fdata [0, 0, 0, 0] }]
                  outputs := [{ ty := .f32, dims := [1, 4], data := .fdata [0, 0, 0, 0] }] } } 0 = []) ∧
      (∀ h : (0 : ℤ) ≤ 0 ∧ (0 : ℤ).toNat < it.inputs.length,
          GetInputShape
              { interp := some
                  { inputs := [{ ty := .f32, dims := [1, 2, 2, 1], data := .fdata [0, 0, 0, 0] }]
                    outputs := [{ ty := .f32, dims := [1, 4], data := .fdata [0, 0, 0, 0] }] } } 0 =
            (it.inputs.get ⟨(0 : ℤ).toNat, h.2⟩).dims) ∧
      (((0 : ℤ) < 0 ∨ (it.outputs.length : ℤ) ≤ 0) →
        GetOutputShape
            { interp := some
                { inputs := [{ ty := .f32, dims := [1, 2, 2, 1], data := .fdata [0, 0, 0, 0] }]
                  outputs := [{ ty := .f32, dims := [1, 4], data := .fdata [0, 0, 0, 0] }] } } 0 = []) ∧
      (∀ h : (0 : ℤ) ≤ 0 ∧ (0 : ℤ).toNat < it.outputs.length,
          GetOutputShape
              { interp := some
                  { inputs := [{ ty := .f32, dims := [1, 2, 2, 1], data := .fdata [0, 0, 0, 0] }]
                    outputs := [{ ty := .f32, dims := [1, 4], data := .fdata [0, 0, 0, 0] }] } } 0 =
            (it.outputs.get ⟨(0 : ℤ).toNat, h.2⟩).dims)) :=
  c8_theorem
    { interp := some
        { inputs := [{ ty := .f32, dims := [1, 2, 2, 1], data := .fdata [0, 0, 0, 0] }]
          outputs := [{ ty := .f32, dims := [1, 4], data := .fdata [0, 0, 0, 0] }] } } 0

/-- Claim C9: the single-buffer `RunInference` behaves exactly as
`RunInferenceMulti` on the one-element input list: it fails iff the
multi call fails, produces the same final session state, on success
stores output tensor 0's buffer (outputs beyond index 0 are
discarded), and when the model has zero outputs it still succeeds and
leaves the caller's output buffer unchanged (as it does on failure). -/
theorem c9_theorem (env : RunEnv) (input output0 : List ℚ) (s : Runner) :
    ((RunInference env input output0 s).1 = none ↔
      (RunInferenceMulti env [input] [] s).1 = none) ∧
    (RunInference env input output0 s).2.2 = (RunInferenceMulti env [input] [] s).2.2 ∧
    ((RunInferenceMulti env [input] [] s).1 = none →
      (RunInference env input output0 s).2.1 =
        (RunInferenceMulti env [input] [] s).2.1.headD output0) ∧
    ((RunInferenceMulti env [input] [] s).1 ≠ none →
      (RunInference env input output0 s).2.1 = output0) := by
  unfold RunInference
  rcases hm : (RunInferenceMulti env [input] [] s).1 with _ | e
  · rcases ho : (RunInferenceMulti env [input] [] s).2.1 with _ | ⟨o, os⟩ <;>
      simp [hm, ho]
  · simp [hm]

/-- Witness for `c9_theorem` on a session with no interpreter (both
calls fail with `noInterpreter` and the output buffer is untouched). -/
theorem c9_witness :
    ((RunInference {} [1] [7] {}).1 = none ↔
      (RunInferenceMulti {} [[1]] [] {}).1 = none) ∧
    (RunInference {} [1] [7] {}).2.2 = (RunInferenceMulti {} [[1]] [] {}).2.2 ∧
    ((RunInferenceMulti {} [[1]] [] {}).1 = none →
      (RunInference {} [1] [7] {}).2.1 =
        (RunInferenceMulti {} [[1]] [] {}).2.1.headD [7]) ∧
    ((RunInferenceMulti {} [[1]] [] {}).1 ≠ none →
      (RunInference {} [1] [7] {}).2.1 = [7]) :=
  c9_theorem {} [1] [7] {}

theorem placeStep_fold (enumName : ℤ → String) (nodes : List NodeReg)
    (plan : List ℤ) (stats : OpPlacementStats)
    (hres : ∀ idx ∈ plan, nodeLookup nodes idx ≠ none) :
    ((plan.foldl (placeStep enumName nodes) stats).gpu_ops +
        (plan.foldl (placeStep enumName nodes) stats).cpu_ops =
      stats.gpu_ops + stats.cpu_ops + (plan.length : ℤ)) ∧
    (plan.foldl (placeStep enumName nodes) stats).total_ops = stats.total_ops := by
  induction plan generalizing stats with
  | nil => simp
  | cons idx rest ih =>
    have hidx : nodeLookup nodes idx ≠ none := hres idx (by simp)
    rcases hnr : nodeLookup nodes idx with _ | nr
    · exact absurd hnr hidx
    · have hrest : ∀ j ∈ rest, nodeLookup nodes j ≠ none :=
        fun j hj => hres j (by simp [hj])
      simp only [List.foldl_cons]
      rcases hdel : nr.delegated with _ | _
      · have step : placeStep enumName nodes stats idx =
            { stats with
              cpu_ops := stats.cpu_ops + 1
              cpu_op_names := stats.cpu_op_names ++
                [match nr.custom_name with
                 | some c => c
                 | none => enumName nr.builtin_code] } := by
          simp [placeStep, hnr, hdel]
        rw [step]
        obtain ⟨h1, h2⟩ := ih _ hrest
        refine ⟨?_, by simpa using h2⟩
        rw [h1]
        simp
        ring
      · have step : placeStep enumName nodes stats idx =
            { stats with gpu_ops := stats.gpu_ops + 1 } := by
          simp [placeStep, hnr, hdel]
        rw [step]
        obtain ⟨h1, h2⟩ := ih _ hrest
        refine ⟨?_, by simpa using h2⟩
        rw [h1]
        simp
        ring

/-- Claim C6: whenever every node index of the finalized execution
plan resolves in the interpreter's node table (which holds after any
successful invocation), the operator placement report satisfies
`gpu_ops + cpu_ops = total_ops`, and `total_ops` is the number of
operators in the finalized execution plan. -/
theorem c6_theorem (enumName : ℤ → String) (s : Runner) (it : Interp)
    (hi : s.interp = some it)
    (hres : ∀ idx ∈ it.execution_plan, nodeLookup it.nodes idx ≠ none) :
    (GetOpPlacementStats enumName s).gpu_ops + (GetOpPlacementStats enumName s).cpu_ops =
      (GetOpPlacementStats enumName s).total_ops ∧
    (GetOpPlacementStats enumName s).total_ops = (it.execution_plan.length : ℤ) := by
  have hfold := placeStep_fold enumName it.nodes it.execution_plan
    { total_ops := (it.execution_plan.length : ℤ) } hres
  simp only [GetOpPlacementStats, hi]
  refine ⟨?_, by simpa using hfold.2⟩
  rw [hfold.1, hfold.2]
  simp

/-- Witness for `c6_theorem` on a two-node plan with one delegated and
one host-resident node. -/
theorem c6_witness :
    (GetOpPlacementStats (fun _ => "ADD")
        { interp := some
            { execution_plan := [0, 1]
              nodes := [{ delegated := true, custom_name := none, builtin_code := 0 },
                        { delegated := false, custom_name := none, builtin_code := 1 }] } }).gpu_ops +
      (GetOpPlacementStats (fun _ => "ADD")
        { interp := some
            { execution_plan := [0, 1]
              nodes := [{ delegated := true, custom_name := none, builtin_code := 0 },
                        { delegated := false, custom_name := none, builtin_code := 1 }] } }).cpu_ops =
      (GetOpPlacementStats (fun _ => "ADD")
        { interp := some
            { execution_plan := [0, 1]
              nodes := [{ delegated := true, custom_name := none, builtin_code := 0 },
                        { delegated := false, custom_name := none, builtin_code := 1 }] } }).total_ops ∧
    (GetOpPlacementStats (fun _ => "ADD")
        { interp := some
            { execution_plan := [0, 1]
              nodes := [{ delegated := true, custom_name := none, builtin_code := 0 },
                        { delegated := false, custom_name := none, builtin_code := 1 }] } }).total_ops =
      ((Interp.execution_plan
          { execution_plan := [0, 1]
            nodes := [{ delegated := true, custom_name := none, builtin_code := 0 },
                      { delegated := false, custom_name := none, builtin_code := 1 }] }).length : ℤ) :=
  c6_theorem (fun _ => "ADD")
    { interp := some
        { execution_plan := [0, 1]
          nodes := [{ delegated := true, custom_name := none, builtin_code := 0 },
                    { delegated := false, custom_name := none, builtin_code := 1 }] } }
    { execution_plan := [0, 1]
      nodes := [{ delegated := true, custom_name := none, builtin_code := 0 },
                { delegated := false, custom_name := none, builtin_code := 1 }] }
    rfl (by decide)

theorem resizeList_length (xs : List α) (n : ℕ) (d : α) :
    (resizeList xs n d).length = n := by
  simp [resizeList]
  omega

theorem copyInputsLoop_ok (i : ℕ) (ts : List Tensor) (bufs : List (List ℚ))
    (hlen : ts.length = bufs.length)
    (hok : ∀ p t buf, ts.get? p = some t → bufs.get? p = some buf →
      t.supportedB = true ∧ buf.length = GetTensorElementCount t) :
    copyInputsLoop i ts bufs =
      (none, List.zipWith (fun t buf => { t with data := convertInputData t buf }) ts bufs) := by
  induction ts generalizing i bufs with
  | nil =>
    cases bufs with
    | nil => rfl
    | cons b bs => simp at hlen
  | cons t ts ih =>
    cases bufs with
    | nil => simp at hlen
    | cons buf bufs =>
      obtain ⟨hsup, hblen⟩ := hok 0 t buf rfl rfl
      have hlen2 : ts.length = bufs.length := by simpa using hlen
      have hok2 : ∀ p t2 b2, ts.get? p = some t2 → bufs.get? p = some b2 →
          t2.supportedB = true ∧ b2.length = GetTensorElementCount t2 := by
        intro p t2 b2 h1 h2
        exact hok (p + 1) t2 b2 (by simpa using h1) (by simpa using h2)
      have hrec := ih (i + 1) bufs hlen2 hok2
      cases hty : t.ty with
      | f32 =>
        simp [copyInputsLoop, TfLiteTensorCopyFromBuffer, hty, hblen, hrec, convertInputData]
      | u8 =>
        simp [copyInputsLoop, TfLiteTensorCopyFromBuffer, hty, hblen, hrec, convertInputData]
      | i8 =>
        simp [copyInputsLoop, TfLiteTensorCopyFromBuffer, hty, hblen, hrec, convertInputData]
      | other c =>
        rw [Tensor.supportedB, hty] at hsup
        simp at hsup

theorem copyInputsLoop_mismatch (m : ℕ) (i : ℕ) (ts : List Tensor)
    (bufs : List (List ℚ)) (tm : Tensor) (bm : List ℚ)
    (hearlier : ∀ p t buf, p < m → ts.get? p = some t → bufs.get? p = some buf →
      t.supportedB = true ∧ buf.length = GetTensorElementCount t)
    (hmt : ts.get? m = some tm) (hmb : bufs.get? m = some bm)
    (hmm : bm.length ≠ GetTensorElementCount tm) :
    (copyInputsLoop i ts bufs).1 =
      some (.inputSizeMismatch (i + m) (GetTensorElementCount tm) bm.length) ∧
    ∀ j, m ≤ j → (copyInputsLoop i ts bufs).2.get? j = ts.get? j := by
  induction m generalizing i ts bufs with
  | zero =>
    cases ts with
    | nil => simp at hmt
    | cons t ts =>
      cases bufs with
      | nil => simp at hmb
      | cons buf bufs =>
        have ht : t = tm := by simpa using hmt
        have hb : buf = bm := by simpa using hmb
        subst ht
        subst hb
        constructor
        · simp [copyInputsLoop, hmm]
        · intro j _
          simp [copyInputsLoop, hmm]
  | succ m ih =>
    cases ts with
    | nil => simp at hmt
    | cons t ts =>
      cases bufs with
      | nil => simp at hmb
      | cons buf bufs =>
        obtain ⟨hsup, hblen⟩ := hearlier 0 t buf (Nat.succ_pos m) rfl rfl
        have hearlier2 : ∀ p t2 b2, p < m → ts.get? p = some t2 → bufs.get? p = some b2 →
            t2.supportedB = true ∧ b2.length = GetTensorElementCount t2 := by
          intro p t2 b2 hp h1 h2
          exact hearlier (p + 1) t2 b2 (by omega) (by simpa using h1) (by simpa using h2)
        have hmt2 : ts.get? m = some tm := by simpa using hmt
        have hmb2 : bufs.get? m = some bm := by simpa using hmb
        have hrec := ih (i + 1) ts bufs hearlier2 hmt2 hmb2
        have hidx : i + 1 + m = i + (m + 1) := by omega
        rw [hidx] at hrec
        cases hty : t.ty with
        | f32 =>
          constructor
          · have hred : (copyInputsLoop i (t :: ts) (buf :: bufs)).1 =
                (copyInputsLoop (i + 1) ts bufs).1 := by
              simp [copyInputsLoop, TfLiteTensorCopyFromBuffer, hty, hblen]
            rw [hred, hrec.1]
          · intro j hj
            obtain ⟨j, rfl⟩ : ∃ j2, j = j2 + 1 := ⟨j - 1, by omega⟩
            have hred : (copyInputsLoop i (t :: ts) (buf :: bufs)).2.get? (j + 1) =
                (copyInputsLoop (i + 1) ts bufs).2.get? j := by
              simp [copyInputsLoop, TfLiteTensorCopyFromBuffer, hty, hblen]
            rw [hred, hrec.2 j (by omega)]
            simp
        | u8 =>
          constructor
          · have hred : (copyInputsLoop i (t :: ts) (buf :: bufs)).1 =
                (copyInputsLoop (i + 1) ts bufs).1 := by
              simp [copyInputsLoop, TfLiteTensorCopyFromBuffer, hty, hblen]
            rw [hred, hrec.1]
          · intro j hj
            obtain ⟨j, rfl⟩ : ∃ j2, j = j2 + 1 := ⟨j - 1, by omega⟩
            have hred : (copyInputsLoop i (t :: ts) (buf :: bufs)).2.get? (j + 1) =
                (copyInputsLoop (i + 1) ts bufs).2.get? j := by
              simp [copyInputsLoop, TfLiteTensorCopyFromBuffer, hty, hblen]
            rw [hred, hrec.2 j (by omega)]
            simp
        | i8 =>
          constructor
          · have hred : (copyInputsLoop i (t :: ts) (buf :: bufs)).1 =
                (copyInputsLoop (i + 1) ts bufs).1 := by
              simp [copyInputsLoop, TfLiteTensorCopyFromBuffer, hty, hblen]
            rw [hred, hrec.1]
          · intro j hj
            obtain ⟨j, rfl⟩ : ∃ j2, j = j2 + 1 := ⟨j - 1, by omega⟩
            have hred : (copyInputsLoop i (t :: ts) (buf :: bufs)).2.get? (j + 1) =
                (copyInputsLoop (i + 1) ts bufs).2.get? j := by
              simp [copyInputsLoop, TfLiteTensorCopyFromBuffer, hty, hblen]
            rw [hred, hrec.2 j (by omega)]
            simp
        | other c =>
          rw [Tensor.supportedB, hty] at hsup
          simp at hsup

theorem copyInputsLoop_none_supported (bufs : List (List ℚ)) (i : ℕ)
    (ts : List Tensor) (h : (copyInputsLoop i ts bufs).1 = none) :
    ∀ p t, p < bufs.length → ts.get? p = some t → t.supportedB = true := by
  induction bufs generalizing i ts with
  | nil =>
    intro p t hp
    exact absurd hp (Nat.not_lt_zero p)
  | cons buf bufs ih =>
    cases ts with
    | nil => simp [copyInputsLoop] at h
    | cons t0 ts =>
      intro p t2 hp hget
      by_cases hc : buf.length = GetTensorElementCount t0
      · cases hty : t0.ty with
        | f32 =>
          have hh : (copyInputsLoop (i + 1) ts bufs).1 = none := by
            simpa [copyInputsLoop, TfLiteTensorCopyFromBuffer, hty, hc] using h
          cases p with
          | zero =>
            have ht : t0 = t2 := by simpa using hget
            rw [← ht, Tensor.supportedB, hty]
          | succ p =>
            exact ih (i + 1) ts hh p t2 (by simpa using hp) (by simpa using hget)
        | u8 =>
          have hh : (copyInputsLoop (i + 1) ts bufs).1 = none := by
            simpa [copyInputsLoop, TfLiteTensorCopyFromBuffer, hty, hc] using h
          cases p with
          | zero =>
            have ht : t0 = t2 := by simpa using hget
            rw [← ht, Tensor.supportedB, hty]
          | succ p =>
            exact ih (i + 1) ts hh p t2 (by simpa using hp) (by simpa using hget)
        | i8 =>
          have hh : (copyInputsLoop (i + 1) ts bufs).1 = none := by
            simpa [copyInputsLoop, TfLiteTensorCopyFromBuffer, hty, hc] using h
          cases p with
          | zero =>
            have ht : t0 = t2 := by simpa using hget
            rw [← ht, Tensor.supportedB, hty]
          | succ p =>
            exact ih (i + 1) ts hh p t2 (by simpa using hp) (by simpa using hget)
        | other c =>
          simp [copyInputsLoop, hty, hc] at h
      · simp [copyInputsLoop, hc] at h

theorem copyInputsLoop_unsupported_frame (bufs : List (List ℚ)) (i : ℕ)
    (ts : List Tensor) :
    ∀ p t, ts.get? p = some t → t.supportedB = false →
      (copyInputsLoop i ts bufs).2.get? p = some t := by
  induction bufs generalizing i ts with
  | nil =>
    intro p t hget _
    simpa [copyInputsLoop] using hget
  | cons buf bufs ih =>
    intro p t hget hsup
    cases ts with
    | nil => simp at hget
    | cons t0 ts =>
      by_cases hc : buf.length = GetTensorElementCount t0
      · cases hty : t0.ty with
        | f32 =>
          cases p with
          | zero =>
            have ht : t0 = t := by simpa using hget
            rw [← ht, Tensor.supportedB, hty] at hsup
            simp at hsup
          | succ p =>
            have hih := ih (i + 1) ts p t (by simpa using hget) hsup
            simpa [copyInputsLoop, TfLiteTensorCopyFromBuffer, hty, hc] using hih
        | u8 =>
          cases p with
          | zero =>
            have ht : t0 = t := by simpa using hget
            rw [← ht, Tensor.supportedB, hty] at hsup
            simp at hsup
          | succ p =>
            have hih := ih (i + 1) ts p t (by simpa using hget) hsup
            simpa [copyInputsLoop, TfLiteTensorCopyFromBuffer, hty, hc] using hih
        | i8 =>
          cases p with
          | zero =>
            have ht : t0 = t := by simpa using hget
            rw [← ht, Tensor.supportedB, hty] at hsup
            simp at hsup
          | succ p =>
            have hih := ih (i + 1) ts p t (by simpa using hget) hsup
            simpa [copyInputsLoop, TfLiteTensorCopyFromBuffer, hty, hc] using hih
        | other c =>
          simpa [copyInputsLoop, hty, hc] using hget
      · simpa [copyInputsLoop, hc] using hget

theorem copyOutputsLoop_ok (i : ℕ) (ts : List Tensor) (outs : List (List ℚ))
    (hlen : outs.length = ts.length)
    (hwf : ∀ t ∈ ts, t.wfb = true) :
    copyOutputsLoop i ts outs = (none, ts.map readTensorQ) := by
  induction ts generalizing i outs with
  | nil =>
    cases outs with
    | nil => rfl
    | cons o os => simp at hlen
  | cons t ts ih =>
    cases outs with
    | nil => simp at hlen
    | cons o outs =>
      have hwft := hwf t (by simp)
      have hwfrest : ∀ t2 ∈ ts, t2.wfb = true := fun t2 h2 => hwf t2 (by simp [h2])
      have hlen2 : outs.length = ts.length := by simpa using hlen
      have hrec := ih (i + 1) outs hlen2 hwfrest
      rw [Tensor.wfb, Bool.and_eq_true, beq_iff_eq] at hwft
      obtain ⟨hmatch, hdl⟩ := hwft
      cases hty : t.ty with
      | f32 =>
        cases hdata : t.data with
        | fdata xs =>
          have hxs : xs.length = GetTensorElementCount t := by
            rw [Tensor.dataLen, hdata] at hdl
            exact hdl
          simp [copyOutputsLoop, hty, hdata, hxs, hrec, readTensorQ]
        | idata xs =>
          rw [hty, hdata] at hmatch
          simp at hmatch
      | u8 =>
        cases hdata : t.data with
        | idata xs =>
          have hxs : xs.length = GetTensorElementCount t := by
            rw [Tensor.dataLen, hdata] at hdl
            exact hdl
          simp [copyOutputsLoop, hty, hdata, hxs, hrec, readTensorQ]
        | fdata xs =>
          rw [hty, hdata] at hmatch
          simp at hmatch
      | i8 =>
        cases hdata : t.data with
        | idata xs =>
          have hxs : xs.length = GetTensorElementCount t := by
            rw [Tensor.dataLen, hdata] at hdl
            exact hdl
          simp [copyOutputsLoop, hty, hdata, hxs, hrec, readTensorQ]
        | fdata xs =>
          rw [hty, hdata] at hmatch
          simp at hmatch
      | other c =>
        rw [hty] at hmatch
        simp at hmatch

theorem copyOutputsLoop_none_supported (ts : List Tensor) (i : ℕ)
    (outs : List (List ℚ)) (h : (copyOutputsLoop i ts outs).1 = none) :
    ∀ t ∈ ts, t.supportedB = true := by
  induction ts generalizing i outs with
  | nil => simp
  | cons t ts ih =>
    cases outs with
    | nil => simp [copyOutputsLoop] at h
    | cons o outs =>
      intro t2 ht2
      cases hty : t.ty with
      | f32 =>
        cases hdata : t.data with
        | fdata xs =>
          by_cases hxs : xs.length = GetTensorElementCount t
          · have hh : (copyOutputsLoop (i + 1) ts outs).1 = none := by
              simpa [copyOutputsLoop, hty, hdata, hxs] using h
            rcases List.mem_cons.mp ht2 with rfl | hmem
            · rw [Tensor.supportedB, hty]
            · exact ih (i + 1) outs hh t2 hmem
          · simp [copyOutputsLoop, hty, hdata, hxs] at h
        | idata xs => simp [copyOutputsLoop, hty, hdata] at h
      | u8 =>
        cases hdata : t.data with
        | idata xs =>
          by_cases hxs : xs.length = GetTensorElementCount t
          · have hh : (copyOutputsLoop (i + 1) ts outs).1 = none := by
              simpa [copyOutputsLoop, hty, hdata, hxs] using h
            rcases List.mem_cons.mp ht2 with rfl | hmem
            · rw [Tensor.supportedB, hty]
            · exact ih (i + 1) outs hh t2 hmem
          · simp [copyOutputsLoop, hty, hdata, hxs] at h
        | fdata xs => simp [copyOutputsLoop, hty, hdata] at h
      | i8 =>
        cases hdata : t.data with
        | idata xs =>
          by_cases hxs : xs.length = GetTensorElementCount t
          · have hh : (copyOutputsLoop (i + 1) ts outs).1 = none := by
              simpa [copyOutputsLoop, hty, hdata, hxs] using h
            rcases List.mem_cons.mp ht2 with rfl | hmem
            · rw [Tensor.supportedB, hty]
            · exact ih (i + 1) outs hh t2 hmem
          · simp [copyOutputsLoop, hty, hdata, hxs] at h
        | fdata xs => simp [copyOutputsLoop, hty, hdata] at h
      | other c => simp [copyOutputsLoop, hty] at h

theorem allocateTensors_fst (mem : MemoryStats) (s : Runner) (it : Interp)
    (hi : s.interp = some it) : (AllocateTensors true mem s).1 = true := by
  simp only [AllocateTensors, hi, Bool.not_true, Bool.false_eq_true, if_false]

theorem allocateTensors_interp (ok : Bool) (mem : MemoryStats) (s : Runner) :
    (AllocateTensors ok mem s).2.interp = s.interp := by
  cases hsi : s.interp with
  | none => simp [AllocateTensors, hsi]
  | some it =>
    cases ok with
    | false => simp [AllocateTensors, hsi]
    | true =>
      simp only [AllocateTensors, hsi, Bool.not_true, Bool.false_eq_true, if_false]
      split <;> rfl

theorem runMulti_ok (env : RunEnv) (inputs outputs0 : List (List ℚ)) (s : Runner)
    (it : Interp)
    (hi : s.interp = some it)
    (ha : s.tensors_allocated = true ∨ env.alloc_ok = true)
    (hinv : env.invoke_ok = true)
    (hlen : inputs.length = it.inputs.length)
    (hin : ∀ p t buf, it.inputs.get? p = some t → inputs.get? p = some buf →
        t.supportedB = true ∧ buf.length = GetTensorElementCount t)
    (hout : ∀ t ∈ it.outputs, t.wfb = true) :
    (RunInferenceMulti env inputs outputs0 s).1 = none ∧
    (RunInferenceMulti env inputs outputs0 s).2.1 = it.outputs.map readTensorQ ∧
    (RunInferenceMulti env inputs outputs0 s).2.2.interp =
      some { it with
        inputs := List.zipWith (fun t buf => { t with data := convertInputData t buf })
          it.inputs inputs } := by
  have hic := copyInputsLoop_ok 0 it.inputs inputs hlen.symm hin
  have hoc := copyOutputsLoop_ok 0 it.outputs (resizeList outputs0 it.outputs.length [])
      (by rw [resizeList_length]) hout
  cases hta : s.tensors_allocated with
  | true =>
    refine ⟨?_, ?_, ?_⟩ <;>
      · simp only [RunInferenceMulti, hi, hta]
        simp [hlen, hinv, hic, hoc]
        all_goals split <;> rfl
  | false =>
    have hao : env.alloc_ok = true := by
      rcases ha with h | h
      · rw [hta] at h
        exact absurd h (by simp)
      · exact h
    have hpa := allocateTensors_fst env.mem_alloc s it hi
    refine ⟨?_, ?_, ?_⟩ <;>
      · simp only [RunInferenceMulti, hi, hta]
        rw [hao]
        simp [hpa, hlen, hinv, hic, hoc]
        all_goals split <;> rfl

theorem runMulti_input_err (env : RunEnv) (inputs outputs0 : List (List ℚ))
    (s : Runner) (it : Interp) (e : RunErr)
    (hi : s.interp = some it)
    (ha : s.tensors_allocated = true ∨ env.alloc_ok = true)
    (hlen : inputs.length = it.inputs.length)
    (hice : (copyInputsLoop 0 it.inputs inputs).1 = some e) :
    (RunInferenceMulti env inputs outputs0 s).1 = some e ∧
    (RunInferenceMulti env inputs outputs0 s).2.1 = outputs0 ∧
    (RunInferenceMulti env inputs outputs0 s).2.2.interp =
      some { it with inputs := (copyInputsLoop 0 it.inputs inputs).2 } := by
  cases hta : s.tensors_allocated with
  | true =>
    refine ⟨?_, ?_, ?_⟩ <;>
      · simp only [RunInferenceMulti, hi, hta]
        simp [hlen, hice]
  | false =>
    have hao : env.alloc_ok = true := by
      rcases ha with h | h
      · rw [hta] at h
        exact absurd h (by simp)
      · exact h
    have hpa := allocateTensors_fst env.mem_alloc s it hi
    refine ⟨?_, ?_, ?_⟩ <;>
      · simp only [RunInferenceMulti, hi, hta]
        rw [hao]
        simp [hpa, hlen, hice]

theorem runMulti_none_inv (env : RunEnv) (inputs outputs0 : List (List ℚ))
    (s : Runner) (h : (RunInferenceMulti env inputs outputs0 s).1 = none) :
    ∃ it, s.interp = some it ∧ inputs.length = it.inputs.length ∧
      (copyInputsLoop 0 it.inputs inputs).1 = none ∧
      (copyOutputsLoop 0 it.outputs (resizeList outputs0 it.outputs.length [])).1 = none := by
  cases hsi : s.interp with
  | none => simp [RunInferenceMulti, hsi] at h
  | some it =>
    refine ⟨it, rfl, ?_⟩
    have hpa1 : s.tensors_allocated = true ∨
        ((AllocateTensors env.alloc_ok env.mem_alloc s).1 = true) := by
      cases hta : s.tensors_allocated with
      | true => exact Or.inl rfl
      | false =>
        cases hao : env.alloc_ok with
        | true => exact Or.inr (allocateTensors_fst env.mem_alloc s it hsi)
        | false =>
          exfalso
          simp [RunInferenceMulti, AllocateTensors, hsi, hta, hao] at h
    by_cases hcount : inputs.length = it.inputs.length
    · refine ⟨hcount, ?_⟩
      rcases hic : (copyInputsLoop 0 it.inputs inputs).1 with _ | e
      · refine ⟨rfl, ?_⟩
        cases hinv : env.invoke_ok with
        | false =>
          exfalso
          rcases hpa1 with hta | hpa
          · simp [RunInferenceMulti, hsi, hta, hcount, hic, hinv] at h
          · cases hta : s.tensors_allocated with
            | true => simp [RunInferenceMulti, hsi, hta, hcount, hic, hinv] at h
            | false => simp [RunInferenceMulti, hsi, hta, hpa, hcount, hic, hinv] at h
        | true =>
          rcases hoc : (copyOutputsLoop 0 it.outputs (resizeList outputs0 it.outputs.length [])).1
              with _ | e2
          · rfl
          · exfalso
            rcases hpa1 with hta | hpa
            · simp [RunInferenceMulti, hsi, hta, hcount, hic, hinv, hoc] at h
            · cases hta : s.tensors_allocated with
              | true => simp [RunInferenceMulti, hsi, hta, hcount, hic, hinv, hoc] at h
              | false => simp [RunInferenceMulti, hsi, hta, hpa, hcount, hic, hinv, hoc] at h
      · exfalso
        rcases hpa1 with hta | hpa
        · simp [RunInferenceMulti, hsi, hta, hcount, hic] at h
        · cases hta : s.tensors_allocated with
          | true => simp [RunInferenceMulti, hsi, hta, hcount, hic] at h
          | false => simp [RunInferenceMulti, hsi, hta, hpa, hcount, hic] at h
    · exfalso
      rcases hpa1 with hta | hpa
      · simp [RunInferenceMulti, hsi, hta, hcount] at h
      · cases hta : s.tensors_allocated with
        | true => simp [RunInferenceMulti, hsi, hta, hcount] at h
        | false => simp [RunInferenceMulti, hsi, hta, hpa, hcount] at h

theorem runMulti_interp_cases (env : RunEnv) (inputs outputs0 : List (List ℚ))
    (s : Runner) (it : Interp) (hi : s.interp = some it) :
    (RunInferenceMulti env inputs outputs0 s).2.2.interp = some it ∨
    (RunInferenceMulti env inputs outputs0 s).2.2.interp =
      some { it with inputs := (copyInputsLoop 0 it.inputs inputs).2 } := by
  have halloc := allocateTensors_interp env.alloc_ok env.mem_alloc s
  cases hta : s.tensors_allocated with
  | true =>
    by_cases hcount : inputs.length = it.inputs.length
    · rcases hic : (copyInputsLoop 0 it.inputs inputs).1 with _ | e
      · cases hinv : env.invoke_ok with
        | false =>
          right
          simp [RunInferenceMulti, hi, hta, hcount, hic, hinv]
        | true =>
          rcases hoc : (copyOutputsLoop 0 it.outputs (resizeList outputs0 it.outputs.length [])).1
              with _ | e2
          · right
            simp only [RunInferenceMulti, hi, hta]
            simp [hcount, hic, hinv, hoc]
            all_goals split <;> rfl
          · right
            simp [RunInferenceMulti, hi, hta, hcount, hic, hinv, hoc]
      · right
        simp [RunInferenceMulti, hi, hta, hcount, hic]
    · left
      simp [RunInferenceMulti, hi, hta, hcount]
  | false =>
    cases hpa : (AllocateTensors env.alloc_ok env.mem_alloc s).1 with
    | false =>
      left
      simp only [RunInferenceMulti, hi, hta]
      simp [hpa]
      rw [halloc, hi]
    | true =>
      by_cases hcount : inputs.length = it.inputs.length
      · rcases hic : (copyInputsLoop 0 it.inputs inputs).1 with _ | e
        · cases hinv : env.invoke_ok with
          | false =>
            right
            simp [RunInferenceMulti, hi, hta, hpa, hcount, hic, hinv]
          | true =>
            rcases hoc : (copyOutputsLoop 0 it.outputs (resizeList outputs0 it.outputs.length [])).1
                with _ | e2
            · right
              simp only [RunInferenceMulti, hi, hta]
              simp [hpa, hcount, hic, hinv, hoc]
              all_goals split <;> rfl
            · right
              simp [RunInferenceMulti, hi, hta, hpa, hcount, hic, hinv, hoc]
        · right
          simp [RunInferenceMulti, hi, hta, hpa, hcount, hic]
      · left
        simp [RunInferenceMulti, hi, hta, hpa, hcount]
        rw [halloc, hi]

theorem initGPUDelegate_fail (env : DelegateEnv) (s : Runner) (it : Interp)
    (hi : s.interp = some it) (hd : s.gpu_delegate = false)
    (hfail : env.create_ok = false ∨ env.modify_ok = false) :
    InitGPUDelegate env s =
      (false, { s with timing_stats :=
        { s.timing_stats with delegate_init_ms := env.t_delegate } }) := by
  rcases hfail with hf | hf
  · simp [InitGPUDelegate, hi, hd, hf]
  · cases hc : env.create_ok with
    | false => simp [InitGPUDelegate, hi, hd, hc]
    | true => simp [InitGPUDelegate, hi, hd, hc, hf]

theorem get?_zipWith {α β γ : Type} {f : α → β → γ} (l1 : List α) (l2 : List β)
    (p : ℕ) (a : α) (b : β)
    (h1 : l1.get? p = some a) (h2 : l2.get? p = some b) :
    (List.zipWith f l1 l2).get? p = some (f a b) := by
  induction l1 generalizing l2 p with
  | nil => simp at h1
  | cons x xs ih =>
    cases l2 with
    | nil => simp at h2
    | cons y ys =>
      cases p with
      | zero =>
        have ha : x = a := by simpa using h1
        have hb : y = b := by simpa using h2
        simp [ha, hb]
      | succ p =>
        simpa using ih ys p (by simpa using h1) (by simpa using h2)

/-- Claim C1 (counterexample): with two input tensors (float32, 2 and 3
elements) and buffers `[[1,2],[9]]`, the second buffer's element count
mismatches, the call fails reporting expected `3` and actual `1` — but
input tensor 0 has already received the copied values `[1,2]`, so it is
NOT true that every engine input tensor's contents are unchanged by the
failed call. -/
theorem c1_counterexample :
    (RunInferenceMulti {} [[1, 2], [9]] []
        { interp := some
            { inputs := [{ ty := .f32, dims := [2], data := .fdata [0, 0] },
                         { ty := .f32, dims := [3], data := .fdata [0, 0, 0] }] }
          tensors_allocated := true }).1 =
      some (.inputSizeMismatch 1 3 1) ∧
    ((RunInferenceMulti {} [[1, 2], [9]] []
        { interp := some
            { inputs := [{ ty := .f32, dims := [2], data := .fdata [0, 0] },
                         { ty := .f32, dims := [3], data := .fdata [0, 0, 0] }] }
          tensors_allocated := true }).2.2.interp.map fun it2 => it2.inputs.get? 0) =
      some (some { ty := .f32, dims := [2], data := .fdata [1, 2] }) ∧
    ({ ty := .f32, dims := [2], data := .fdata [1, 2] } : Tensor) ≠
      { ty := .f32, dims := [2], data := .fdata [0, 0] } := by
  refine ⟨rfl, rfl, by decide⟩

/-- Claim C1 (amended): when the first invalid input is the buffer at
index `m`, whose element count differs from the declared element count
of input tensor `m` (all earlier inputs being valid), the call fails
with an error reporting the index together with the expected and
actual element counts, the caller's outputs vector is untouched, and
no copy occurs into the mismatching tensor or any later tensor —
tensors at indices before `m` have already received their copies. -/
theorem c1_theorem (env : RunEnv) (inputs outputs0 : List (List ℚ)) (s : Runner)
    (it : Interp) (m : ℕ) (tm : Tensor) (bm : List ℚ)
    (hi : s.interp = some it)
    (ha : s.tensors_allocated = true ∨ env.alloc_ok = true)
    (hlen : inputs.length = it.inputs.length)
    (hearlier : ∀ p t buf, p < m → it.inputs.get? p = some t → inputs.get? p = some buf →
      t.supportedB = true ∧ buf.length = GetTensorElementCount t)
    (hmt : it.inputs.get? m = some tm) (hmb : inputs.get? m = some bm)
    (hmm : bm.length ≠ GetTensorElementCount tm) :
    (RunInferenceMulti env inputs outputs0 s).1 =
      some (.inputSizeMismatch m (GetTensorElementCount tm) bm.length) ∧
    (RunInferenceMulti env inputs outputs0 s).2.1 = outputs0 ∧
    (∀ j, m ≤ j → ∀ it2,
      (RunInferenceMulti env inputs outputs0 s).2.2.interp = some it2 →
        it2.inputs.get? j = it.inputs.get? j) := by
  have hmi := copyInputsLoop_mismatch m 0 it.inputs inputs tm bm hearlier hmt hmb hmm
  rw [Nat.zero_add] at hmi
  have hplumb := runMulti_input_err env inputs outputs0 s it _ hi ha hlen hmi.1
  refine ⟨hplumb.1, hplumb.2.1, ?_⟩
  intro j hj it2 hit2
  rw [hplumb.2.2] at hit2
  have heq := Option.some.inj hit2
  rw [← heq]
  simpa using hmi.2 j hj

/-- Witness for `c1_theorem` at the concrete mismatching call of
`c1_counterexample` (first mismatch at index 1: expected 3, got 1). -/
theorem c1_witness :
    (RunInferenceMulti {} [[1, 2], [9]] []
        { interp := some
            { inputs := [{ ty := .f32, dims := [2], data := .fdata [0, 0] },
                         { ty := .f32, dims := [3], data := .fdata [0, 0, 0] }] }
          tensors_allocated := true }).1 =
      some (.inputSizeMismatch 1
        (GetTensorElementCount { ty := .f32, dims := [3], data := .fdata [0, 0, 0] })
        ([9] : List ℚ).length) ∧
    (RunInferenceMulti {} [[1, 2], [9]] []
        { interp := some
            { inputs := [{ ty := .f32, dims := [2], data := .fdata [0, 0] },
                         { ty := .f32, dims := [3], data := .fdata [0, 0, 0] }] }
          tensors_allocated := true }).2.1 = [] ∧
    (∀ j, 1 ≤ j → ∀ it2,
      (RunInferenceMulti {} [[1, 2], [9]] []
          { interp := some
              { inputs := [{ ty := .f32, dims := [2], data := .fdata [0, 0] },
                           { ty := .f32, dims := [3], data := .fdata [0, 0, 0] }] }
            tensors_allocated := true }).2.2.interp = some it2 →
        it2.inputs.get? j =
          (Interp.inputs
            { inputs := [{ ty := .f32, dims := [2], data := .fdata [0, 0] },
                         { ty := .f32, dims := [3], data := .fdata [0, 0, 0] }] }).get? j) :=
  c1_theorem {} [[1, 2], [9]] []
    { interp := some
        { inputs := [{ ty := .f32, dims := [2], data := .fdata [0, 0] },
                     { ty := .f32, dims := [3], data := .fdata [0, 0, 0] }] }
      tensors_allocated := true }
    { inputs := [{ ty := .f32, dims := [2], data := .fdata [0, 0] },
                 { ty := .f32, dims := [3], data := .fdata [0, 0, 0] }] }
    1 { ty := .f32, dims := [3], data := .fdata [0, 0, 0] } [9]
    rfl (Or.inl rfl) rfl
    (by
      intro p t buf hp hpt hpb
      interval_cases p
      · simp only [List.get?] at hpt hpb
        obtain rfl : t = { ty := .f32, dims := [2], data := .fdata [0, 0] } :=
          (Option.some.inj hpt).symm
        obtain rfl : buf = ([1, 2] : List ℚ) := (Option.some.inj hpb).symm
        exact ⟨rfl, by decide⟩)
    rfl rfl (by decide)

/-- Claim C2 (counterexample): when delegate construction and graph
modification both succeed but the subsequent tensor (re-)allocation
fails, `InitGPUDelegate` returns failure with the delegate STILL
attached — the session is not left with an un-accelerated graph. -/
theorem c2_counterexample :
    (InitGPUDelegate { alloc_ok := false } { interp := some {} }).1 = false ∧
    (InitGPUDelegate { alloc_ok := false } { interp := some {} }).2.gpu_delegate = true := by
  exact ⟨rfl, rfl⟩

/-- Claim C2 (amended): if delegate construction fails or graph
modification with the delegate is rejected, the session is left with
no delegate attached, and a subsequent `RunInference` on that session
still succeeds on host-only execution (given the engine's host
allocation and invoke succeed and the call is well-formed); but when
tensor allocation after a successful attach fails, `InitGPUDelegate`
returns failure with the delegate still attached
(see `c2_counterexample`). -/
theorem c2_theorem (env : DelegateEnv) (env2 : RunEnv) (s : Runner) (it : Interp)
    (t0 : Tensor) (buf : List ℚ) (out0 : List ℚ)
    (hi : s.interp = some it) (hd : s.gpu_delegate = false)
    (hfail : env.create_ok = false ∨ env.modify_ok = false)
    (hao : env2.alloc_ok = true) (hinv : env2.invoke_ok = true)
    (hit : it.inputs = [t0])
    (hsup : t0.supportedB = true)
    (hblen : buf.length = GetTensorElementCount t0)
    (hout : ∀ t ∈ it.outputs, t.wfb = true) :
    (InitGPUDelegate env s).1 = false ∧
    (InitGPUDelegate env s).2.gpu_delegate = false ∧
    (RunInference env2 buf out0 (InitGPUDelegate env s).2).1 = none := by
  have hfs := initGPUDelegate_fail env s it hi hd hfail
  rw [hfs]
  refine ⟨rfl, by simpa using hd, ?_⟩
  have h1 : ({ s with timing_stats :=
      { s.timing_stats with delegate_init_ms := env.t_delegate } } : Runner).interp = some it := by
    simpa using hi
  have hin : ∀ p t b, it.inputs.get? p = some t → ([buf] : List (List ℚ)).get? p = some b →
      t.supportedB = true ∧ b.length = GetTensorElementCount t := by
    intro p t b hp hb
    rw [hit] at hp
    cases p with
    | zero =>
      obtain rfl : t0 = t := by simpa using hp
      obtain rfl : buf = b := by simpa using hb
      exact ⟨hsup, hblen⟩
    | succ p => simp at hp
  have hmulti := runMulti_ok env2 [buf] []
    { s with timing_stats := { s.timing_stats with delegate_init_ms := env.t_delegate } }
    it h1 (Or.inr hao) hinv (by simp [hit]) hin hout
  rcases ho : (RunInferenceMulti env2 [buf] []
      { s with timing_stats :=
        { s.timing_stats with delegate_init_ms := env.t_delegate } }).2.1 with _ | ⟨o, os⟩ <;>
    simp [RunInference, hmulti.1, ho]

/-- Witness for `c2_theorem`: delegate construction fails on a session
holding one float32 input tensor with one element; the follow-up
host-only `RunInference` with buffer `[2]` succeeds. -/
theorem c2_witness :
    (InitGPUDelegate { create_ok := false }
        { interp := some
            { inputs := [{ ty := .f32, dims := [1], data := .fdata [0] }] } }).1 = false ∧
    (InitGPUDelegate { create_ok := false }
        { interp := some
            { inputs := [{ ty := .f32, dims := [1], data := .fdata [0] }] } }).2.gpu_delegate =
      false ∧
    (RunInference {} [2] []
        (InitGPUDelegate { create_ok := false }
          { interp := some
              { inputs := [{ ty := .f32, dims := [1], data := .fdata [0] }] } }).2).1 = none :=
  c2_theorem { create_ok := false } {}
    { interp := some { inputs := [{ ty := .f32, dims := [1], data := .fdata [0] }] } }
    { inputs := [{ ty := .f32, dims := [1], data := .fdata [0] }] }
    { ty := .f32, dims := [1], data := .fdata [0] } [2] []
    rfl rfl (Or.inl rfl) rfl rfl rfl (by decide) (by decide) (by simp)

/-- Claim C3: in a well-formed successful `RunInferenceMulti` call, for
every input tensor of type uint8 or int8 the storage written into the
tensor is exactly the element-wise truncation (C-style cast, not
rounding) of the host float buffer (the range hypotheses state that
each truncated value is representable in the target type, the domain
on which the C++ cast is defined); and for every output tensor of type
uint8 or int8, the returned host buffer is the raw stored integer
sequence widened element-wise by direct numeric conversion — no
de-quantization scale or zero-point is applied. -/
theorem c3_theorem (env : RunEnv) (inputs outputs0 : List (List ℚ)) (s : Runner)
    (it : Interp)
    (hi : s.interp = some it)
    (ha : s.tensors_allocated = true ∨ env.alloc_ok = true)
    (hinv : env.invoke_ok = true)
    (hlen : inputs.length = it.inputs.length)
    (hin : ∀ p t buf, it.inputs.get? p = some t → inputs.get? p = some buf →
        t.supportedB = true ∧ buf.length = GetTensorElementCount t)
    (hout : ∀ t ∈ it.outputs, t.wfb = true) :
    (∀ p t buf, it.inputs.get? p = some t → inputs.get? p = some buf →
      ((t.ty = .u8 → (∀ x ∈ buf, 0 ≤ truncQ x ∧ truncQ x ≤ 255) →
        ∀ it2, (RunInferenceMulti env inputs outputs0 s).2.2.interp = some it2 →
          it2.inputs.get? p = some { t with data := .idata (buf.map truncQ) }) ∧
       (t.ty = .i8 → (∀ x ∈ buf, -128 ≤ truncQ x ∧ truncQ x ≤ 127) →
        ∀ it2, (RunInferenceMulti env inputs outputs0 s).2.2.interp = some it2 →
          it2.inputs.get? p = some { t with data := .idata (buf.map truncQ) }))) ∧
    (∀ q tq xs, it.outputs.get? q = some tq → (tq.ty = .u8 ∨ tq.ty = .i8) →
      tq.data = .idata xs →
      (RunInferenceMulti env inputs outputs0 s).2.1.get? q =
        some (xs.map fun z => (z : ℚ))) := by
  obtain ⟨h1, h2, h3⟩ := runMulti_ok env inputs outputs0 s it hi ha hinv hlen hin hout
  constructor
  · intro p t buf hp hb
    constructor
    · intro hty _ it2 hit2
      rw [h3] at hit2
      have heq := Option.some.inj hit2
      rw [← heq]
      have hz := get?_zipWith (f := fun t buf => { t with data := convertInputData t buf })
        it.inputs inputs p t buf hp hb
      simpa [convertInputData, hty] using hz
    · intro hty _ it2 hit2
      rw [h3] at hit2
      have heq := Option.some.inj hit2
      rw [← heq]
      have hz := get?_zipWith (f := fun t buf => { t with data := convertInputData t buf })
        it.inputs inputs p t buf hp hb
      simpa [convertInputData, hty] using hz
  · intro q tq xs hq htyq hdq
    rw [h2, List.get?_map, hq]
    rcases htyq with hty | hty <;> simp [readTensorQ, hty, hdq]

/-- Witness for `c3_theorem`: one uint8 input tensor of two elements
fed `[3, 200]`, one int8 output tensor storing `[10, -3]`. -/
theorem c3_witness :
    (∀ p t buf,
      (Interp.inputs { inputs := [{ ty := .u8, dims := [2], data := .idata [0, 0] }]
                       outputs := [{ ty := .i8, dims := [2], data := .idata [10, -3] }] }).get? p =
          some t →
      ([[3, 200]] : List (List ℚ)).get? p = some buf →
      ((t.ty = .u8 → (∀ x ∈ buf, 0 ≤ truncQ x ∧ truncQ x ≤ 255) →
        ∀ it2,
          (RunInferenceMulti {} [[3, 200]] []
              { interp := some
                  { inputs := [{ ty := .u8, dims := [2], data := .idata [0, 0] }]
                    outputs := [{ ty := .i8, dims := [2], data := .idata [10, -3] }] }
                tensors_allocated := true }).2.2.interp = some it2 →
          it2.inputs.get? p = some { t with data := .idata (buf.map truncQ) }) ∧
       (t.ty = .i8 → (∀ x ∈ buf, -128 ≤ truncQ x ∧ truncQ x ≤ 127) →
        ∀ it2,
          (RunInferenceMulti {} [[3, 200]] []
              { interp := some
                  { inputs := [{ ty := .u8, dims := [2], data := .idata [0, 0] }]
                    outputs := [{ ty := .i8, dims := [2], data := .idata [10, -3] }] }
                tensors_allocated := true }).2.2.interp = some it2 →
          it2.inputs.get? p = some { t with data := .idata (buf.map truncQ) }))) ∧
    (∀ q tq xs,
      (Interp.outputs { inputs := [{ ty := .u8, dims := [2], data := .idata [0, 0] }]
                        outputs := [{ ty := .i8, dims := [2], data := .idata [10, -3] }] }).get? q =
          some tq →
      (tq.ty = .u8 ∨ tq.ty = .i8) → tq.data = .idata xs →
      (RunInferenceMulti {} [[3, 200]] []
          { interp := some
              { inputs := [{ ty := .u8, dims := [2], data := .idata [0, 0] }]
                outputs := [{ ty := .i8, dims := [2], data := .idata [10, -3] }] }
            tensors_allocated := true }).2.1.get? q =
        some (xs.map fun z => (z : ℚ))) :=
  c3_theorem {} [[3, 200]] []
    { interp := some
        { inputs := [{ ty := .u8, dims := [2], data := .idata [0, 0] }]
          outputs := [{ ty := .i8, dims := [2], data := .idata [10, -3] }] }
      tensors_allocated := true }
    { inputs := [{ ty := .u8, dims := [2], data := .idata [0, 0] }]
      outputs := [{ ty := .i8, dims := [2], data := .idata [10, -3] }] }
    rfl (Or.inl rfl) rfl rfl
    (by
      intro p t buf hp hb
      cases p with
      | zero =>
        obtain rfl : ({ ty := .u8, dims := [2], data := .idata [0, 0] } : Tensor) = t := by
          simpa using hp
        obtain rfl : ([3, 200] : List ℚ) = buf := by simpa using hb
        exact ⟨by decide, by decide⟩
      | succ p => simp at hp)
    (by
      intro t ht
      obtain rfl : t = { ty := .i8, dims := [2], data := .idata [10, -3] } := by simpa using ht
      decide)

/-- Claim C4: when some input or output tensor has an element type
other than float32, int8 or uint8, the whole invocation fails (for
every environment, input set and prior outputs vector), no data is
ever copied into an unsupported input tensor (its contents — and all
output tensors' contents — are unchanged in the final state), rather
than the tensor being silently skipped with the call succeeding. -/
theorem c4_theorem (env : RunEnv) (inputs outputs0 : List (List ℚ)) (s : Runner)
    (it : Interp)
    (hi : s.interp = some it)
    (hbad : (∃ t ∈ it.inputs, t.supportedB = false) ∨
      (∃ t ∈ it.outputs, t.supportedB = false)) :
    (RunInferenceMulti env inputs outputs0 s).1 ≠ none ∧
    (∀ p t, it.inputs.get? p = some t → t.supportedB = false →
      ∀ it2, (RunInferenceMulti env inputs outputs0 s).2.2.interp = some it2 →
        it2.inputs.get? p = some t) ∧
    (∀ it2, (RunInferenceMulti env inputs outputs0 s).2.2.interp = some it2 →
      it2.outputs = it.outputs) := by
  refine ⟨?_, ?_, ?_⟩
  · intro hnone
    obtain ⟨it', hi', hcount, hicn, hocn⟩ := runMulti_none_inv env inputs outputs0 s hnone
    rw [hi] at hi'
    obtain rfl : it = it' := Option.some.inj hi'
    rcases hbad with ⟨t, hmem, hsup⟩ | ⟨t, hmem, hsup⟩
    · obtain ⟨p, hp⟩ := List.mem_iff_get?.mp hmem
      have hplen : p < inputs.length := by
        obtain ⟨hlt, -⟩ := List.get?_eq_some.mp hp
        omega
      have htrue := copyInputsLoop_none_supported inputs 0 it.inputs hicn p t hplen hp
      rw [htrue] at hsup
      simp at hsup
    · have htrue := copyOutputsLoop_none_supported it.outputs 0 _ hocn t hmem
      rw [htrue] at hsup
      simp at hsup
  · intro p t hp hsup it2 hit2
    rcases runMulti_interp_cases env inputs outputs0 s it hi with hcase | hcase <;>
      rw [hcase] at hit2
    · have heq := Option.some.inj hit2
      rw [← heq]
      exact hp
    · have heq := Option.some.inj hit2
      rw [← heq]
      simpa using copyInputsLoop_unsupported_frame inputs 0 it.inputs p t hp hsup
  · intro it2 hit2
    rcases runMulti_interp_cases env inputs outputs0 s it hi with hcase | hcase <;>
      rw [hcase] at hit2 <;>
      · have heq := Option.some.inj hit2
        rw [← heq]

/-- Witness for `c4_theorem` on a session whose single input tensor
has the unsupported element type code `13` (`kTfLiteInt64`-like). -/
theorem c4_witness :
    (RunInferenceMulti {} [[1]] []
        { interp := some
            { inputs := [{ ty := .other 13, dims := [1], data := .idata [0] }] }
          tensors_allocated := true }).1 ≠ none ∧
    (∀ p t,
      (Interp.inputs
          { inputs := [{ ty := .other 13, dims := [1], data := .idata [0] }] }).get? p = some t →
      t.supportedB = false →
      ∀ it2,
        (RunInferenceMulti {} [[1]] []
            { interp := some
                { inputs := [{ ty := .other 13, dims := [1], data := .idata [0] }] }
              tensors_allocated := true }).2.2.interp = some it2 →
          it2.inputs.get? p = some t) ∧
    (∀ it2,
      (RunInferenceMulti {} [[1]] []
          { interp := some
              { inputs := [{ ty := .other 13, dims := [1], data := .idata [0] }] }
            tensors_allocated := true }).2.2.interp = some it2 →
        it2.outputs =
          Interp.outputs
            { inputs := [{ ty := .other 13, dims := [1], data := .idata [0] }] }) :=
  c4_theorem {} [[1]] []
    { interp := some { inputs := [{ ty := .other 13, dims := [1], data := .idata [0] }] }
      tensors_allocated := true }
    { inputs := [{ ty := .other 13, dims := [1], data := .idata [0] }] }
    rfl
    (Or.inl ⟨{ ty := .other 13, dims := [1], data := .idata [0] }, by simp, rfl⟩)
